import Mathlib

/-!
Verification of the ELMo-Rs core against its specification.

The Rust sources are embedded shallowly:
* `src/loader.rs`  : `Loader` (batch iteration and shuffling), `ELMoText`
  (example construction: tokenisation, character windows, next-token shift),
  `Splitter` (train/dev/test partition of the corpus index set);
* `src/model.rs`   : `Highway` (gated transform) and `UniLM` (residual
  stacked recurrent encoder), modelled over abstract scalars / sequence
  values so that the structural and algebraic statements are exact;
* `src/config.rs`  : `JsonELMo` defaults and `ConfigElmo::validate` over a
  model of `serde_json::Value`.

Conventions used throughout:
* Rust vectors become `List`; `HashMap` lookups become functions into
  `Option`; machine integers become `Nat`/`Int` (with `% 256` where the code
  casts `as u8`); fallible code returns `Option`/`Except`; a Rust panic
  (`unwrap`/`expect`/`assert!`/a `tch` exception) is modelled by a dedicated
  failure constructor, kept separate from a `Result::Err` value.
* Randomness (`Tensor::randperm`) is modelled by passing the produced
  permutation as an explicit argument, constrained by a `List.Perm`
  hypothesis where a theorem needs it.
-/

namespace ELMoRs

/-- Rust `str::trim`: drop whitespace from both ends of a character list.
(`String::trim` uses Unicode whitespace; `Char.isWhitespace` covers the
ASCII cases, which is what the corpus data contains.) -/
def trimChars (cs : List Char) : List Char :=
  ((cs.dropWhile Char.isWhitespace).reverse.dropWhile Char.isWhitespace).reverse

/-- A for-loop that pushes `f a` for each element and aborts on the first
failure (a Rust `?`, or a panic propagated as `none`). -/
def optionTraverse {α β : Type} (f : α → Option β) : List α → Option (List β)
  | [] => some []
  | a :: l =>
    match f a, optionTraverse f l with
    | some b, some bs => some (b :: bs)
    | _, _ => none

/-- A for-loop that pushes `f a` for each element and propagates the first
`Except.error` (the `?` operator inside `validate_vec` in `config.rs`). -/
def exceptTraverse {α β : Type} (f : α → Except String β) : List α → Except String (List β)
  | [] => .ok []
  | a :: l =>
    match f a with
    | .error e => .error e
    | .ok b =>
      match exceptTraverse f l with
      | .error e => .error e
      | .ok bs => .ok (b :: bs)

/-- `Tensor::split_with_sizes`: slice a list into consecutive chunks of the
given sizes. -/
def splitWithSizes {α : Type} : List α → List ℕ → List (List α)
  | _, [] => []
  | l, s :: rest => l.take s :: splitWithSizes (l.drop s) rest

/-! ## `src/loader.rs` : `Loader` -/

/-- `Loader` from `loader.rs` (the `device` tag carries no data relevant to
the iteration protocol and is omitted). `current_index` starts at `-1`. -/
structure Loader (α β : Type) where
  xs : List α
  ys : List β
  current_index : Int
deriving DecidableEq

/-- `Loader::new`: `assert_eq!(xs.len(), ys.len())` is modelled by returning
`none` (a panic) when the lengths differ. -/
def Loader.new {α β : Type} (xs : List α) (ys : List β) : Option (Loader α β) :=
  if xs.length = ys.length then some { xs := xs, ys := ys, current_index := -1 } else none

/-- Result of one `Iterator::next` call on `Loader`. The source either
returns `Some((x, y))` (`item`) or panics on `unwrap` of a failed index
lookup (`fault`); it has no clean end-of-sequence branch. -/
inductive Step (α β : Type) where
  | item : α → β → Loader α β → Step α β
  | fault : Step α β
deriving DecidableEq

/-- `impl Iterator for Loader`: increment `current_index`, then index both
lists unconditionally (`.get(i).unwrap()`). A failed lookup is the `fault`
(panic) outcome. -/
def Loader.next {α β : Type} (l : Loader α β) : Step α β :=
  let i := l.current_index + 1
  match l.xs[i.toNat]?, l.ys[i.toNat]? with
  | some x, some y => .item x y { l with current_index := i }
  | _, _ => .fault

/-- `Loader::shuffle`: reorder `xs` and `ys` by one and the same permutation
(the `Tensor::randperm` output, passed here as `perm`). The source indexes
with `.get(i).unwrap()`; an out-of-range index is the `none` (panic) case. -/
def Loader.shuffle {α β : Type} (l : Loader α β) (perm : List ℕ) : Option (Loader α β) :=
  match optionTraverse (fun i => l.xs[i]?) perm, optionTraverse (fun i => l.ys[i]?) perm with
  | some xs2, some ys2 => some { l with xs := xs2, ys := ys2 }
  | _, _ => none

/-! ## `src/loader.rs` : `ELMoText` -/

/-- Outcome of `ELMoText::get_example`: a `Result::Ok`, a `Result::Err`
(`ok_or` on a missing example index), or a process fault (`fatal` models a
Rust panic from `expect`/`unwrap`/`assert!` or a `tch` exception). -/
inductive ExResult (γ : Type) where
  | ok : γ → ExResult γ
  | err : String → ExResult γ
  | fatal : String → ExResult γ
deriving DecidableEq

/-- `ELMoText` from `loader.rs`; the two `HashMap`s become lookup
functions. -/
structure ELMoText where
  examples : List String
  token2int : String → Option ℕ
  char2int : Char → Option ℕ
  max_len_token : Option ℕ
  char_start : Char
  char_end : Char
  char_unk : Char
  str_unk : String

/-- The closure `map_chars_to_ints` in `get_example`: map each character to
its id with unknown-character fallback, then truncate to `max_len_token` or
right-pad with the id of the pad character `' '`. `none` models the panics
of `expect` on a missing unknown-character or pad entry. -/
def ELMoText.map_chars_to_ints (e : ELMoText) (token : List Char) : Option (List ℕ) :=
  match e.char2int e.char_unk with
  | none => none
  | some unk_char_id =>
    let char_ids := token.map (fun c => (e.char2int c).getD unk_char_id)
    let token_len := char_ids.length
    match e.char2int ' ' with
    | none => none
    | some pad =>
      match e.max_len_token with
      | none => some char_ids
      | some max_len_token =>
        if max_len_token ≤ token_len then some (char_ids.take max_len_token)
        else some (char_ids ++ List.replicate (max_len_token - token_len) pad)

/-- The per-token window of `get_example`: the characters of the token
(`token.split("")`, i.e. `String.toList`), wrapped with the start sentinel
in front and the end sentinel behind, then `map_chars_to_ints`. -/
def ELMoText.token_window (e : ELMoText) (t : String) : Option (List ℕ) :=
  e.map_chars_to_ints (e.char_start :: (t.toList ++ [e.char_end]))

/-- `example.split(" ").map(|x| x.trim().to_owned())`: split on the single
space character and trim each piece. Splitting is done on the character
list, which is exactly what splitting a UTF-8 Rust string on `" "` does. -/
def ELMoText.sentence_tokens (s : String) : List String :=
  (s.toList.splitOn ' ').map (fun cs => (trimChars cs).asString)

/-- `ELMoText::get_example`, following `loader.rs` step by step:
token ids with unknown-token fallback and the `label as u8` cast (`% 256`),
character windows for every token, `labels.remove(0)` and
`inputs.remove(n-1)` (the next-token shift), the
`assert_eq!(inputs.len(), labels.len())`, and the final tensorisation
(`Tensor::concat` panics on an empty list; `reshape` unwraps
`max_len_token` and needs the element count divisible by it; the last
assert compares the two sequence-length dimensions). The returned pair
carries the contents of the `(1, n-1, max_len_token)` input tensor and the
`(1, n-1)` label tensor. -/
def ELMoText.get_example (e : ELMoText) (index : ℕ) : ExResult (List (List ℕ) × List ℕ) :=
  match e.examples[index]? with
  | none => .err "example index not found in examples indices"
  | some sentence =>
    let tokens := ELMoText.sentence_tokens sentence
    match e.token2int e.str_unk with
    | none => .fatal "didnt find unk symbol"
    | some unk_id =>
      let labels := tokens.map (fun t => ((e.token2int t).getD unk_id) % 256)
      match optionTraverse e.token_window tokens with
      | none => .fatal "didnt find unk char symbol or didnt find pad symbol"
      | some inputs =>
        if inputs.length = 0 ∨ labels.length = 0 then
          .fatal "remove index out of bounds"
        else
          let labels2 := labels.tail
          let inputs2 := inputs.dropLast
          if inputs2.length ≠ labels2.length then
            .fatal "assertion failed: inputs.len() == labels.len()"
          else if inputs2.length = 0 then
            .fatal "Tensor::concat expects a non-empty list of tensors"
          else
            match e.max_len_token with
            | none => .fatal "called Option::unwrap on a None value"
            | some m =>
              if m = 0 ∨ (inputs2.map List.length).sum % m ≠ 0 then
                .fatal "reshape: invalid target shape"
              else if (inputs2.map List.length).sum / m ≠ labels2.length then
                .fatal "assertion failed: shape dim 1 of inputs and labels"
              else .ok (inputs2, labels2)

/-! ## `src/loader.rs` : `Splitter` -/

namespace Splitter

/-- `get_split_train_dev_test_ratio`: `[0.8, 0.1, 0.1]`, as exact rationals.
(The `f64` sum `0.8 + 0.1 + 0.1` rounds to exactly `1.0`, so the ratio
assert in the source passes.) -/
def split_ratio : List ℚ := [0.8, 0.1, 0.1]

/-- `get_split_train_dev_test_sizes`: the first two sizes are
`(ratio * n_samples as f64) as i64`, i.e. the floor of the product (the
`f64` product truncates to the same integer as the exact rational product
for every corpus-sized `n`), and the third size absorbs the remainder
`n - s0 - s1`. -/
def get_split_train_dev_test_sizes (n : ℕ) : List ℕ :=
  let r := split_ratio
  let s0 := ⌊(r.getD 0 0) * (n : ℚ)⌋₊
  let s1 := ⌊(r.getD 1 0) * (n : ℚ)⌋₊
  [s0, s1, n - (s0 + s1)]

/-- `get_split_train_dev_test_indices`: slice a random permutation of
`0..n` (here the explicit argument `perm`) into consecutive chunks of the
computed sizes, exactly as `Tensor::split_with_sizes` does. Two panic
paths of the source are modelled as `none`:
* `assert!(n_samples > 0)` fails for `n = 0`;
* the permutation is requested as `Tensor::randperm(n, (Kind::Int8, _))`:
  a signed 8-bit tensor, so torch's dtype-range check on `randperm`
  rejects every `n` whose largest index `n - 1` exceeds `i8::MAX = 127`,
  and the `tch` wrapper panics — the split faults for all `n > 128`
  (and downstream the indices are consumed as `Vec<i8>`). -/
def get_split_train_dev_test_indices (n : ℕ) (perm : List ℕ) : Option (List (List ℕ)) :=
  if n = 0 then none
  else if 128 < n then none
  else some (splitWithSizes perm (get_split_train_dev_test_sizes n))

end Splitter

/-! ## `src/model.rs` : `Highway`

The scalar type is kept abstract (a commutative ring), with the two
pointwise non-linearities `sigmoid` and `relu` passed as functions: the
structural and algebraic content of the claims does not depend on their
analytic definitions. A vector is a `List R`. -/

/-- `nn::Linear`: a weight matrix (one row per output unit) and a bias
vector; `apply` computes `W x + b` row by row, as `Tensor::apply` of a
linear module does on the last dimension. -/
structure Linear (R : Type) where
  weight : List (List R)
  bias : List R

/-- Apply a linear layer to a vector: dot product of each weight row with
the input, plus the bias entry. -/
def Linear.apply {R : Type} [Mul R] [Add R] [Zero R] (l : Linear R) (x : List R) : List R :=
  List.zipWith (fun w b => (List.zipWith (fun wi xi => wi * xi) w x).sum + b) l.weight l.bias

/-- `Highway` from `model.rs`: gate weights `w_t` and transform weights
`w_h` (both created square, `total_filters` to `total_filters`, in
`CharLevelNet::new`). -/
structure Highway (R : Type) where
  w_t : Linear R
  w_h : Linear R

/-- `Highway::forward_t`:
`t = sigmoid(w_t x)`, `transform_part = relu(w_h x) * t`,
`carry_part = x * (1 - t)`, output `transform_part + carry_part`,
all pointwise. -/
def Highway.forward_t {R : Type} [CommRing R] (sigmoid relu : R → R)
    (hw : Highway R) (xs : List R) : List R :=
  let t := (hw.w_t.apply xs).map sigmoid
  let transform_part := List.zipWith (fun a ti => a * ti) ((hw.w_h.apply xs).map relu) t
  let carry_part := List.zipWith (fun xi ti => xi * (1 - ti)) xs t
  List.zipWith (fun a b => a + b) transform_part carry_part

/-! ## `src/model.rs` : `UniLM`

A whole `(batch, seq_len, width)` activation tensor is abstracted to a
single value of type `α` with an addition (the elementwise residual `+=`),
and an LSTM state to a value of type `σ`. Each LSTM layer together with
`seq_init` becomes a function `α → σ → α × σ`, and the shared projection
`to_rep` a function `α → α`: the claim under scrutiny is purely about which
values are stacked, added and returned. -/

/-- `UniLM` from `model.rs`. -/
structure UniLM (α σ : Type) where
  lstm_layers : List (α → σ → α × σ)
  to_rep : α → α

/-- The layer loop of `UniLM::forward_t`: for each layer `j`, run the LSTM
on the carried value and the carried state, project with `to_rep`, push the
projected value onto `outputs`, then add `outputs[j]` to it (`out +=
outputs[j]`), carrying sum and new state to the next layer. -/
def UniLM.loop {α σ : Type} [Inhabited α] [Add α] (to_rep : α → α) :
    List (α → σ → α × σ) → α → σ → List α → ℕ → List α
  | [], _, _, outputs, _ => outputs
  | lstm :: rest, out, state, outputs, j =>
    let r := lstm out state
    let out1 := to_rep r.1
    let outputs1 := outputs ++ [out1]
    let out2 := out1 + outputs1.getD j default
    UniLM.loop to_rep rest out2 r.2 outputs1 (j + 1)

/-- `UniLM::forward_t`: start from the input `xs` and the freshly
zero-initialised state (passed as `zero_state`), with the retained stack
seeded as `vec![xs]`, and run the layer loop; the result models the final
`Tensor::concat(&outputs, 0)` as the list of stacked entries. -/
def UniLM.forward_t {α σ : Type} [Inhabited α] [Add α]
    (m : UniLM α σ) (xs : α) (zero_state : σ) : List α :=
  UniLM.loop m.to_rep m.lstm_layers xs zero_state [xs] 0

/-- A model of `serde_json::Value`. JSON numbers are carried as exact
rationals. -/
inductive JValue where
  | null : JValue
  | bool : Bool → JValue
  | num : ℚ → JValue
  | str : String → JValue
  | arr : List JValue → JValue
  | obj : List (String × JValue) → JValue

/-- `Value::get(key)`: field lookup on an object; `None` on every other
variant (in particular on numbers, which is what `validate_vec` hits). -/
def JValue.get (v : JValue) (key : String) : Option JValue :=
  match v with
  | .obj fields => (fields.find? (fun kv => kv.1 == key)).map (fun kv => kv.2)
  | _ => none

/-- `Value::as_str`. -/
def JValue.as_str : JValue → Option String
  | .str s => some s
  | _ => none

/-- `Value::as_array`. -/
def JValue.as_array : JValue → Option (List JValue)
  | .arr l => some l
  | _ => none

/-- `Value::as_u64`: defined exactly on non-negative integral JSON
numbers. -/
def JValue.as_u64 : JValue → Option ℕ
  | .num q => if q.den = 1 ∧ 0 ≤ q.num then some q.num.toNat else none
  | _ => none

/-- `Value::as_f64` (floats idealised as the exact rational the JSON text
denotes). -/
def JValue.as_f64 : JValue → Option ℚ
  | .num q => some q
  | _ => none

/-- `JsonELMo` from `config.rs` (the `device` selector carries no data the
claims depend on and is omitted; `i64` fields become `ℤ`, `f64` fields the
exact rationals). -/
structure JsonELMo where
  corpus_file : String
  output_dir : String
  token_vocab_size : ℤ
  char_vocab_size : ℤ
  min_count : ℤ
  max_len_token : ℤ
  char_start : Char
  char_end : Char
  str_unk : String
  batch_size : ℤ
  char_embedding_dim : ℤ
  in_channels : ℤ
  out_channels : List ℤ
  kernel_size : List ℤ
  highways : ℤ
  in_dim : ℤ
  hidden_dim : ℤ
  n_lstm_layers : ℤ
  dropout : ℚ
  max_iter : ℤ
  learning_rate : ℚ

namespace ConfigElmo

/-- `ok_or`: turn an `Option` into an `Except` with the given message. -/
def ofOption {γ : Type} (msg : String) : Option γ → Except String γ
  | some v => .ok v
  | none => .error msg

/-- `ConfigElmo::defaults` from `config.rs`, field for field. -/
def defaults (corpus_file output_dir : String) : JsonELMo :=
  { token_vocab_size := 300000
    char_vocab_size := 128
    min_count := 3
    max_len_token := 50
    char_embedding_dim := 15
    in_channels := 1
    out_channels := [1, 2, 3, 4, 5, 6]
    kernel_size := [25, 50, 75, 100, 125, 150]
    highways := 1
    in_dim := 512
    hidden_dim := 4096
    n_lstm_layers := 2
    dropout := 0.1
    max_iter := 10
    learning_rate := 0.001
    char_start := '$'
    char_end := '^'
    str_unk := "UNK"
    batch_size := 1
    corpus_file := corpus_file
    output_dir := output_dir }

/-- The `validate_float` closure. -/
def validate_float (json : JValue) (field : String) : Except String ℚ := do
  let v ← ofOption "field not given" (json.get field)
  ofOption "not float" v.as_f64

/-- The `validate_positive_int` closure. -/
def validate_positive_int (json : JValue) (field : String) : Except String ℤ := do
  let v ← ofOption "field not given" (json.get field)
  let n ← ofOption "not int" v.as_u64
  if n = 0 then .error "not positive int" else pure (n : ℤ)

/-- The `validate_vec` closure, kept faithful to the source: after
`as_array`, it calls `val.get(field)` on every *element* of the array —
a field lookup on a scalar — before `as_u64`. -/
def validate_vec (json : JValue) (field : String) : Except String (List ℤ) := do
  let v ← ofOption "field not given" (json.get field)
  let arr ← ofOption "not vec" v.as_array
  exceptTraverse
    (fun val => do
      let inner ← ofOption "field not given" (val.get field)
      let n ← ofOption "not int" inner.as_u64
      if n = 0 then Except.error "not positive int" else pure ((n : ℤ)))
    arr

/-- One `if let Ok(v) = validate_positive_int(field) { params.f = v }`
step. -/
def updInt (json : JValue) (field : String) (set : ℤ → JsonELMo → JsonELMo)
    (p : JsonELMo) : JsonELMo :=
  match validate_positive_int json field with
  | .ok v => set v p
  | .error _ => p

/-- One `if let Ok(v) = validate_float(field) { params.f = v }` step. -/
def updFloat (json : JValue) (field : String) (set : ℚ → JsonELMo → JsonELMo)
    (p : JsonELMo) : JsonELMo :=
  match validate_float json field with
  | .ok v => set v p
  | .error _ => p

/-- One `if let Ok(v) = validate_vec(field) { params.f = v }` step. -/
def updVec (json : JValue) (field : String) (set : List ℤ → JsonELMo → JsonELMo)
    (p : JsonELMo) : JsonELMo :=
  match validate_vec json field with
  | .ok v => set v p
  | .error _ => p

/-- The sequence of optional-parameter updates of `ConfigElmo::validate`,
in source order. -/
def apply_optional (json : JValue) (p : JsonELMo) : JsonELMo :=
  let p := updInt json "token_vocab_size" (fun v q => { q with token_vocab_size := v }) p
  let p := updInt json "char_vocab_size" (fun v q => { q with char_vocab_size := v }) p
  let p := updInt json "min_count" (fun v q => { q with min_count := v }) p
  let p := updInt json "max_len_token" (fun v q => { q with max_len_token := v }) p
  let p := updInt json "char_embedding_dim" (fun v q => { q with char_embedding_dim := v }) p
  let p := updInt json "in_channels" (fun v q => { q with in_channels := v }) p
  let p := updInt json "highways" (fun v q => { q with highways := v }) p
  let p := updInt json "in_dim" (fun v q => { q with in_dim := v }) p
  let p := updInt json "hidden_dim" (fun v q => { q with hidden_dim := v }) p
  let p := updInt json "n_lstm_layers" (fun v q => { q with n_lstm_layers := v }) p
  let p := updInt json "max_iter" (fun v q => { q with max_iter := v }) p
  let p := updFloat json "dropout" (fun v q => { q with dropout := v }) p
  let p := updFloat json "learning_rate" (fun v q => { q with learning_rate := v }) p
  let p := updVec json "out_channels" (fun v q => { q with out_channels := v }) p
  let p := updVec json "kernel_size" (fun v q => { q with kernel_size := v }) p
  p

/-- `ConfigElmo::validate`: `corpus_file` and `output_dir` must be present
strings (the source panics via `expect` otherwise — modelled as the error
branch), then the defaults are built and every optional parameter is
applied if its own validation succeeds. -/
def validate (json : JValue) : Except String JsonELMo := do
  let cfv ← ofOption "corpus_file was not supplied throught json" (json.get "corpus_file")
  let corpus_file ← ofOption "cannot cast corpus_file to string" cfv.as_str
  let odv ← ofOption "output_dir was not supplied throught json" (json.get "output_dir")
  let output_dir ← ofOption "cannot cast output_dir to string" odv.as_str
  pure (apply_optional json (defaults corpus_file output_dir))

end ConfigElmo

/-! ## Concrete instances used by witnesses and counterexamples -/

/-- A small character vocabulary: pad `' '`, start `'$'`, end `'^'`,
unknown `'~'`. -/
def charMapW : Char → Option ℕ := fun c =>
  if c = ' ' then some 0
  else if c = '$' then some 1
  else if c = '^' then some 2
  else if c = '~' then some 3
  else none

/-- Builder instance for the C3 witness: vocabulary `the→1, cat→2, sat→3`,
unknown token id `0`. -/
def e3w : ELMoText :=
  { examples := ["the cat sat"]
    token2int := fun t =>
      if t = "UNK" then some 0
      else if t = "the" then some 1
      else if t = "cat" then some 2
      else if t = "sat" then some 3
      else none
    char2int := charMapW
    max_len_token := some 5
    char_start := '$'
    char_end := '^'
    char_unk := '~'
    str_unk := "UNK" }

/-- Builder instance for the C4 witness (window width 6). -/
def e4w : ELMoText :=
  { examples := []
    token2int := fun t => if t = "UNK" then some 0 else none
    char2int := charMapW
    max_len_token := some 6
    char_start := '$'
    char_end := '^'
    char_unk := '~'
    str_unk := "UNK" }

/-- Builder instance for the C5 counterexample: a corpus with a one-token
sentence. -/
def e5x : ELMoText :=
  { examples := ["hello"]
    token2int := fun t => if t = "UNK" then some 0 else none
    char2int := charMapW
    max_len_token := some 5
    char_start := '$'
    char_end := '^'
    char_unk := '~'
    str_unk := "UNK" }

/-- Builder instance for the C5 witness: another one-token sentence. -/
def e5w : ELMoText :=
  { examples := ["solo"]
    token2int := fun t => if t = "UNK" then some 0 else none
    char2int := charMapW
    max_len_token := some 5
    char_start := '$'
    char_end := '^'
    char_unk := '~'
    str_unk := "UNK" }

/-- Builder instance for C7: identical to the C3 instance except that the
token `cat` has vocabulary id `300`, which does not fit in a `u8`. -/
def e7x : ELMoText :=
  { examples := ["the cat sat"]
    token2int := fun t =>
      if t = "UNK" then some 0
      else if t = "the" then some 1
      else if t = "cat" then some 300
      else if t = "sat" then some 3
      else none
    char2int := charMapW
    max_len_token := some 5
    char_start := '$'
    char_end := '^'
    char_unk := '~'
    str_unk := "UNK" }

/-- A width-2 `Highway` over `ℤ` for the C9 witness. -/
def hw9w : Highway ℤ :=
  { w_t := { weight := [[1, 0], [0, 1]], bias := [0, 0] }
    w_h := { weight := [[2, 0], [1, 1]], bias := [1, 0] } }

/-- Stand-in pointwise non-linearities for the C9 witness. -/
def sigmoid9 : ℤ → ℤ := fun z => z + 2

/-- Stand-in `relu` for the C9 witness. -/
def relu9 : ℤ → ℤ := fun z => max z 0

/-- JSON input for the C10 counterexample: `out_channels` is supplied as
the empty array (an array all of whose elements are numbers). -/
def jC10x : JValue :=
  .obj [("corpus_file", .str "corpus.txt"), ("output_dir", .str "out"),
        ("out_channels", .arr [])]

/-- JSON input for the C10 witness: both list-valued hyperparameters are
supplied as nonempty arrays of numbers. -/
def jC10w : JValue :=
  .obj [("corpus_file", .str "corpus.txt"), ("output_dir", .str "out"),
        ("out_channels", .arr [.num 7, .num 8]), ("kernel_size", .arr [.num 9])]

/-! ## Helper lemmas -/

theorem optionTraverse_some_strong {α β : Type} {f : α → Option β} {p : β → Prop} :
    ∀ {l : List α}, (∀ a ∈ l, ∃ b, f a = some b ∧ p b) →
      ∃ L, optionTraverse f l = some L ∧ L.length = l.length ∧ ∀ b ∈ L, p b
  | [], _ => ⟨[], rfl, rfl, by simp⟩
  | a :: l, h => by
    obtain ⟨b, hb, hpb⟩ := h a (List.mem_cons_self a l)
    obtain ⟨L, hL, hlen, hpl⟩ :=
      optionTraverse_some_strong (fun x hx => h x (List.mem_cons_of_mem a hx))
    refine ⟨b :: L, ?_, by simp [hlen], ?_⟩
    · simp [optionTraverse, hb, hL]
    · intro c hc
      rcases List.mem_cons.mp hc with h1 | h1
      · exact h1 ▸ hpb
      · exact hpl c h1

theorem optionTraverse_eq_map {α β : Type} {f : α → Option β} {g : α → β} :
    ∀ {l : List α}, (∀ a ∈ l, f a = some (g a)) →
      optionTraverse f l = some (l.map g)
  | [], _ => rfl
  | a :: l, h => by
    have hb := h a (List.mem_cons_self a l)
    have hL := optionTraverse_eq_map (fun x hx => h x (List.mem_cons_of_mem a hx))
    simp [optionTraverse, hb, hL]

theorem splitWithSizes_flatten {α : Type} :
    ∀ (sizes : List ℕ) (l : List α),
      (splitWithSizes l sizes).flatten = l.take sizes.sum
  | [], l => by simp [splitWithSizes]
  | s :: rest, l => by
    simp only [splitWithSizes, List.flatten_cons, splitWithSizes_flatten rest (l.drop s),
      List.sum_cons]
    rw [List.take_add]

theorem Splitter.sizes_eq (n : ℕ) :
    Splitter.get_split_train_dev_test_sizes n
      = [4 * n / 5, n / 10, n - (4 * n / 5 + n / 10)] := by
  have h0 : ⌊(0.8 : ℚ) * (n : ℚ)⌋₊ = 4 * n / 5 := by
    rw [show (0.8 : ℚ) * (n : ℚ) = ((4 * n : ℕ) : ℚ) / ((5 : ℕ) : ℚ) by push_cast; ring_nf]
    rw [Nat.floor_div_nat, Nat.floor_natCast]
  have h1 : ⌊(0.1 : ℚ) * (n : ℚ)⌋₊ = n / 10 := by
    rw [show (0.1 : ℚ) * (n : ℚ) = ((n : ℕ) : ℚ) / ((10 : ℕ) : ℚ) by push_cast; ring_nf]
    rw [Nat.floor_div_nat, Nat.floor_natCast]
  simp only [Splitter.get_split_train_dev_test_sizes, Splitter.split_ratio,
    List.getD_cons_zero, List.getD_cons_succ]
  rw [h0, h1]

/-- The f64 ratio assert of `get_split_train_dev_test_ratio` passes:
the ratios sum to one. -/
theorem Splitter.split_ratio_sum : Splitter.split_ratio.sum = 1 := by
  norm_num [Splitter.split_ratio]

/-! ## Claim C1 -/

/-- Counterexample to C1 as stated: at `n = 200 > 0` the split does not
return three index subsets at all — the source requests the permutation as
a `Kind::Int8` tensor, whose dtype cannot hold indices above 127, so
`Tensor::randperm` fails its dtype-range check and the call panics
(modelled by `none`). -/
theorem claim_C1_counterexample :
    0 < 200 ∧ Splitter.get_split_train_dev_test_indices 200 (List.range 200) = none :=
  ⟨by decide, rfl⟩

/-- Amended C1: for every `0 < n ≤ 128` — the range on which the `Int8`
`randperm` of the source does not fault — and random permutation of
`{0,…,n-1}`, the split of `n` samples returns three index subsets whose
sizes are `floor(0.8*n)`, `floor(0.1*n)` and the remainder (summing
exactly to `n`), that are pairwise disjoint, and whose union is the full
index set; for `n > 128` the call panics instead. -/
theorem claim_C1_amended_split (n : ℕ) (perm : List ℕ) (hn : 0 < n) (hn128 : n ≤ 128)
    (hp : perm.Perm (List.range n)) :
    ∃ parts, Splitter.get_split_train_dev_test_indices n perm = some parts ∧
      parts.map List.length = [4 * n / 5, n / 10, n - (4 * n / 5 + n / 10)] ∧
      4 * n / 5 + n / 10 + (n - (4 * n / 5 + n / 10)) = n ∧
      List.Pairwise List.Disjoint parts ∧
      parts.flatten.Perm (List.range n) := by
  have hlen : perm.length = n := by simpa using hp.length_eq
  have hsome : Splitter.get_split_train_dev_test_indices n perm
      = some (splitWithSizes perm (Splitter.get_split_train_dev_test_sizes n)) := by
    unfold Splitter.get_split_train_dev_test_indices
    rw [if_neg (by omega), if_neg (by omega)]
  have hparts : splitWithSizes perm (Splitter.get_split_train_dev_test_sizes n)
      = [perm.take (4 * n / 5),
         (perm.drop (4 * n / 5)).take (n / 10),
         ((perm.drop (4 * n / 5)).drop (n / 10)).take (n - (4 * n / 5 + n / 10))] := by
    rw [Splitter.sizes_eq]
    rfl
  have hflat : (splitWithSizes perm (Splitter.get_split_train_dev_test_sizes n)).flatten
      = perm := by
    rw [splitWithSizes_flatten, Splitter.sizes_eq]
    simp only [List.sum_cons, List.sum_nil]
    rw [show 4 * n / 5 + (n / 10 + (n - (4 * n / 5 + n / 10) + 0)) = n by omega, ← hlen,
      List.take_length]
  refine ⟨_, hsome, ?_, by omega, ?_, ?_⟩
  · rw [hparts]
    simp only [List.map_cons, List.map_nil, List.length_take, List.length_drop, hlen,
      List.cons.injEq, and_true]
    omega
  · have hnd : (splitWithSizes perm (Splitter.get_split_train_dev_test_sizes n)).flatten.Nodup := by
      rw [hflat]
      exact hp.nodup_iff.mpr (List.nodup_range n)
    exact (List.nodup_flatten.mp hnd).2
  · rw [hflat]
    exact hp

/-- Witness for the amended C1 at `n = 10` with a concrete permutation:
split sizes `[8, 1, 1]`. -/
theorem claim_C1_amended_split_witness :
    ∃ parts, Splitter.get_split_train_dev_test_indices 10 [3, 1, 4, 0, 5, 9, 2, 6, 8, 7]
        = some parts ∧
      parts.map List.length = [4 * 10 / 5, 10 / 10, 10 - (4 * 10 / 5 + 10 / 10)] ∧
      4 * 10 / 5 + 10 / 10 + (10 - (4 * 10 / 5 + 10 / 10)) = 10 ∧
      List.Pairwise List.Disjoint parts ∧
      parts.flatten.Perm (List.range 10) :=
  claim_C1_amended_split 10 [3, 1, 4, 0, 5, 9, 2, 6, 8, 7] (by decide) (by decide) (by decide)

/-! ## Claim C2 -/

/-- Claim C2 (code bug): the claim — and the design notes of the spec —
require iteration to end with a clean end-of-sequence signal after the last
pair. The source instead increments `current_index` and indexes with
`.unwrap()` unconditionally: on a loader holding one pair, the first `next`
yields the pair, and the second `next` hits a failed lookup and panics
(`fault`); no branch of the source ever returns the clean `None`. -/
theorem claim_C2_iterator_end_fault :
    (Loader.new ([7] : List ℤ) ([9] : List ℤ))
        = some { xs := [7], ys := [9], current_index := -1 } ∧
    Loader.next ({ xs := [7], ys := [9], current_index := -1 } : Loader ℤ ℤ)
        = .item 7 9 { xs := [7], ys := [9], current_index := 0 } ∧
    Loader.next ({ xs := [7], ys := [9], current_index := 0 } : Loader ℤ ℤ) = .fault :=
  ⟨rfl, by decide, by decide⟩

/-! ## Claim C8 -/

theorem range_map_getD_pair {α β : Type} [Inhabited α] [Inhabited β]
    (xs : List α) (ys : List β) (h : xs.length = ys.length) :
    (List.range xs.length).map (fun i => (xs.getD i default, ys.getD i default))
      = xs.zip ys := by
  apply List.ext_getElem
  · simp [List.length_zip, h]
  · intro n h1 h2
    simp only [List.getElem_map, List.getElem_range, List.getElem_zip]
    have hn : n < xs.length := by simpa using h1
    rw [List.getD_eq_getElem xs _ hn, List.getD_eq_getElem ys _ (h ▸ hn)]

/-- Claim C8: `shuffle` applies one and the same permutation to the input
list and the label list, so each input keeps its original label, the
multiset of (input, label) pairs is unchanged (only the order changes), and
the loader state (its position counter) is otherwise untouched. -/
theorem claim_C8_shuffle_pairing {α β : Type} [Inhabited α] [Inhabited β]
    (l : Loader α β) (perm : List ℕ)
    (hlen : l.xs.length = l.ys.length)
    (hp : perm.Perm (List.range l.xs.length)) :
    ∃ l2, l.shuffle perm = some l2 ∧
      l2.xs = perm.map (fun i => l.xs.getD i default) ∧
      l2.ys = perm.map (fun i => l.ys.getD i default) ∧
      (l2.xs.zip l2.ys).Perm (l.xs.zip l.ys) ∧
      l2.current_index = l.current_index := by
  have hmem : ∀ i ∈ perm, i < l.xs.length := fun i hi => List.mem_range.mp (hp.mem_iff.mp hi)
  have hxs : optionTraverse (fun i => l.xs[i]?) perm
      = some (perm.map (fun i => l.xs.getD i default)) :=
    optionTraverse_eq_map (fun i hi => by
      rw [List.getElem?_eq_getElem (hmem i hi), List.getD_eq_getElem _ _ (hmem i hi)])
  have hys : optionTraverse (fun i => l.ys[i]?) perm
      = some (perm.map (fun i => l.ys.getD i default)) :=
    optionTraverse_eq_map (fun i hi => by
      rw [List.getElem?_eq_getElem (hlen ▸ hmem i hi), List.getD_eq_getElem _ _ (hlen ▸ hmem i hi)])
  have hsh : l.shuffle perm
      = some { l with
                xs := perm.map (fun i => l.xs.getD i default)
                ys := perm.map (fun i => l.ys.getD i default) } := by
    rw [Loader.shuffle, hxs, hys]
  refine ⟨_, hsh, rfl, rfl, ?_, rfl⟩
  show ((perm.map (fun i => l.xs.getD i default)).zip
      (perm.map (fun i => l.ys.getD i default))).Perm (l.xs.zip l.ys)
  rw [List.zip_map']
  have hmap := hp.map (fun i => (l.xs.getD i default, l.ys.getD i default))
  rw [range_map_getD_pair l.xs l.ys hlen] at hmap
  exact hmap

/-- Witness for C8 on a concrete three-example loader and the permutation
`[2, 0, 1]`. -/
theorem claim_C8_shuffle_pairing_witness :
    ∃ l2, (Loader.mk ([10, 20, 30] : List ℤ) ([1, 2, 3] : List ℤ) (-1)).shuffle [2, 0, 1]
        = some l2 ∧
      l2.xs = [2, 0, 1].map (fun i => ([10, 20, 30] : List ℤ).getD i default) ∧
      l2.ys = [2, 0, 1].map (fun i => ([1, 2, 3] : List ℤ).getD i default) ∧
      (l2.xs.zip l2.ys).Perm (([10, 20, 30] : List ℤ).zip ([1, 2, 3] : List ℤ)) ∧
      l2.current_index = -1 :=
  claim_C8_shuffle_pairing (Loader.mk [10, 20, 30] [1, 2, 3] (-1)) [2, 0, 1] rfl (by decide)

/-! ## Claim C4 -/

theorem ELMoText.map_chars_to_ints_len (e : ELMoText) (m : ℕ) (token : List Char)
    (hm : e.max_len_token = some m)
    (hcu : (e.char2int e.char_unk).isSome)
    (hpad : (e.char2int ' ').isSome) :
    ∃ w, e.map_chars_to_ints token = some w ∧ w.length = m := by
  obtain ⟨u, hu⟩ := Option.isSome_iff_exists.mp hcu
  obtain ⟨p, hp⟩ := Option.isSome_iff_exists.mp hpad
  simp only [ELMoText.map_chars_to_ints, hu, hp, hm]
  rcases le_or_lt m token.length with hc | hc
  · rw [if_pos (by simpa using hc)]
    refine ⟨_, rfl, ?_⟩
    simp only [List.length_take, List.length_map]
    omega
  · rw [if_neg (by simpa using Nat.not_le_of_lt hc)]
    refine ⟨_, rfl, ?_⟩
    simp only [List.length_append, List.length_map, List.length_replicate]
    omega

theorem ELMoText.map_chars_to_ints_some_any (e : ELMoText) (token : List Char)
    (hcu : (e.char2int e.char_unk).isSome)
    (hpad : (e.char2int ' ').isSome) :
    ∃ w, e.map_chars_to_ints token = some w := by
  obtain ⟨u, hu⟩ := Option.isSome_iff_exists.mp hcu
  obtain ⟨p, hp⟩ := Option.isSome_iff_exists.mp hpad
  simp only [ELMoText.map_chars_to_ints, hu, hp]
  split
  · exact ⟨_, rfl⟩
  · split
    · exact ⟨_, rfl⟩
    · exact ⟨_, rfl⟩

/-- Claim C4: when `max_len_token` is configured, the character window of
any token — start sentinel, characters with unknown-character fallback,
end sentinel, then truncation or right-padding with the pad id — has
exactly `max_len_token` elements, on both paths. -/
theorem claim_C4_window_length (e : ELMoText) (m : ℕ) (t : String)
    (hm : e.max_len_token = some m)
    (hcu : (e.char2int e.char_unk).isSome)
    (hpad : (e.char2int ' ').isSome) :
    ∃ w, e.token_window t = some w ∧ w.length = m :=
  ELMoText.map_chars_to_ints_len e m (e.char_start :: (t.toList ++ [e.char_end])) hm hcu hpad

/-- Witness for C4: the token `hi` (window shorter than the configured
width 6, so the padding path is taken). -/
theorem claim_C4_window_length_witness :
    ∃ w, e4w.token_window "hi" = some w ∧ w.length = 6 :=
  claim_C4_window_length e4w 6 "hi" rfl (by decide) (by decide)

/-! ## Claim C3 -/

theorem sum_map_length_const {γ : Type} (m : ℕ) :
    ∀ L : List (List γ), (∀ w ∈ L, w.length = m) → (L.map List.length).sum = L.length * m
  | [], _ => by simp
  | w :: L, h => by
    simp only [List.map_cons, List.sum_cons, List.length_cons]
    rw [h w (List.mem_cons_self w L),
      sum_map_length_const m L (fun x hx => h x (List.mem_cons_of_mem w hx))]
    ring

/-- Claim C3: for a sentence of `k ≥ 2` whitespace-separated tokens
(and a well-formed vocabulary and configured positive window width), the
example builder succeeds and both the input sequence and the label
sequence have length `k - 1`. -/
theorem claim_C3_example_lengths (e : ELMoText) (idx k m : ℕ) (s : String)
    (he : e.examples[idx]? = some s)
    (hk : (ELMoText.sentence_tokens s).length = k)
    (hk2 : 2 ≤ k)
    (hm : e.max_len_token = some m) (hm0 : 0 < m)
    (hcu : (e.char2int e.char_unk).isSome)
    (hpad : (e.char2int ' ').isSome)
    (hunk : (e.token2int e.str_unk).isSome) :
    ∃ ins labs, e.get_example idx = .ok (ins, labs) ∧
      ins.length = k - 1 ∧ labs.length = k - 1 := by
  obtain ⟨u, hu⟩ := Option.isSome_iff_exists.mp hunk
  have hwin : ∀ t2 : String, ∃ w, e.token_window t2 = some w ∧ w.length = m := fun t2 =>
    ELMoText.map_chars_to_ints_len e m (e.char_start :: (t2.toList ++ [e.char_end])) hm hcu hpad
  obtain ⟨inputs, hit, hitlen, hwlen⟩ :=
    optionTraverse_some_strong (f := e.token_window) (p := fun w => w.length = m)
      (l := ELMoText.sentence_tokens s) (fun t _ => hwin t)
  have hlen_inputs : inputs.length = k := hitlen.trans hk
  have hdrop : inputs.dropLast.length = k - 1 := by
    simp [List.length_dropLast, hlen_inputs]
  have hlabs : ((ELMoText.sentence_tokens s).map
      (fun t => ((e.token2int t).getD u) % 256)).length = k := by
    simp [hk]
  have htail : ((ELMoText.sentence_tokens s).map
      (fun t => ((e.token2int t).getD u) % 256)).tail.length = k - 1 := by
    simp [List.length_tail, hlabs]
  have hsum : (inputs.dropLast.map List.length).sum = (k - 1) * m := by
    rw [sum_map_length_const m inputs.dropLast
      (fun w hw => hwlen w (List.dropLast_subset inputs hw)), hdrop]
  simp only [ELMoText.get_example, he, hu, hit]
  rw [if_neg (by simp only [hlen_inputs, hlabs]; omega)]
  rw [if_neg (by simp only [hdrop, htail]; omega)]
  rw [if_neg (by simp only [hdrop]; omega)]
  simp only [hm]
  rw [if_neg (by
    simp only [hsum]
    push_neg
    refine ⟨by omega, ?_⟩
    simp [Nat.mul_mod_left])]
  rw [if_neg (by
    simp only [hsum, htail]
    rw [Nat.mul_div_cancel _ hm0]
    omega)]
  exact ⟨_, _, rfl, hdrop, htail⟩

/-- Witness for C3 on the sentence `the cat sat` (`k = 3`): input and
label sequences of length 2. -/
theorem claim_C3_example_lengths_witness :
    ∃ ins labs, ELMoText.get_example e3w 0 = .ok (ins, labs) ∧
      ins.length = 3 - 1 ∧ labs.length = 3 - 1 :=
  claim_C3_example_lengths e3w 0 3 5 "the cat sat" rfl (by decide) (by decide) rfl
    (by decide) (by decide) (by decide) (by decide)

/-! ## Claim C5 -/

/-- Counterexample to C5 as stated: on the one-token sentence `hello` the
builder does **not** return an empty example as a normal result — the
shifted input list is empty, and the tensorisation step
(`Tensor::concat` of an empty list) panics. -/
theorem claim_C5_counterexample :
    ELMoText.get_example e5x 0 ≠ .ok ([], []) ∧
    ELMoText.get_example e5x 0
      = .fatal "Tensor::concat expects a non-empty list of tensors" :=
  ⟨by decide, by decide⟩

/-- Amended C5: for a sentence with a single token (fewer than 2 tokens),
the shifted input and label sequences are both empty, but instead of
returning them the builder panics when it concatenates the empty input
tensor list. -/
theorem claim_C5_amended_empty_panic (e : ELMoText) (idx : ℕ) (s t : String)
    (he : e.examples[idx]? = some s)
    (htok : ELMoText.sentence_tokens s = [t])
    (hcu : (e.char2int e.char_unk).isSome)
    (hpad : (e.char2int ' ').isSome)
    (hunk : (e.token2int e.str_unk).isSome) :
    e.get_example idx = .fatal "Tensor::concat expects a non-empty list of tensors" := by
  obtain ⟨u, hu⟩ := Option.isSome_iff_exists.mp hunk
  obtain ⟨w, hw⟩ := ELMoText.map_chars_to_ints_some_any e
    (e.char_start :: (t.toList ++ [e.char_end])) hcu hpad
  have hit : optionTraverse e.token_window [t] = some [w] := by
    simp only [optionTraverse, ELMoText.token_window]
    rw [hw]
  simp only [ELMoText.get_example, he, htok, hu, hit]
  rw [if_neg (by simp)]
  rw [if_neg (by simp)]
  rw [if_pos (by simp)]

/-- Witness for the amended C5 on the one-token sentence `solo`. -/
theorem claim_C5_amended_empty_panic_witness :
    ELMoText.get_example e5w 0
      = .fatal "Tensor::concat expects a non-empty list of tensors" :=
  claim_C5_amended_empty_panic e5w 0 "solo" "solo" rfl (by decide) (by decide) (by decide)
    (by decide)

/-! ## Claim C7 -/

/-- Claim C7 (code bug): the label written into the label tensor is
`token_id as u8`, i.e. the vocabulary id modulo 256, not the vocabulary id
itself. With `the→1, cat→300, sat→3` and unknown id `0`, the sentence
`the cat sat` produces the shifted labels `[44, 3]` — the token `cat`
(id 300) gets label `44`, contradicting the claim that each label entry
equals the token id or the unknown id. (For ids below 256, such as the
`[2,3]` example in the claim, the cast is invisible.) -/
theorem claim_C7_label_u8_truncation :
    ELMoText.get_example e7x 0
        = .ok ([[1, 3, 3, 3, 2], [1, 3, 3, 3, 2]], [44, 3]) ∧
    e7x.token2int "cat" = some 300 ∧ (44 : ℕ) ≠ 300 :=
  ⟨by decide, rfl, by decide⟩

/-! ## Claim C6 -/

theorem Linear.apply_length {R : Type} [Mul R] [Add R] [Zero R] (l : Linear R) (x : List R) :
    (l.apply x).length = min l.weight.length l.bias.length := by
  simp [Linear.apply]

/-- Claim C9: a Highway transform computes
`t * relu(w_h x) + (1 - t) * x` pointwise with gate `t = sigmoid(w_t x)`,
and is width-preserving: with the square weight matrices the source
constructs (`total_filters` square), the output width equals the input
width `W`. -/
theorem claim_C9_highway_formula (R : Type) [CommRing R] (sigmoid relu : R → R)
    (hw : Highway R) (xs : List R) (W : ℕ)
    (hx : xs.length = W)
    (hwt : hw.w_t.weight.length = W) (hbt : hw.w_t.bias.length = W)
    (hwh : hw.w_h.weight.length = W) (hbh : hw.w_h.bias.length = W) :
    (Highway.forward_t sigmoid relu hw xs).length = xs.length ∧
    ∀ i, i < W →
      (Highway.forward_t sigmoid relu hw xs).getD i 0
        = sigmoid ((hw.w_t.apply xs).getD i 0) * relu ((hw.w_h.apply xs).getD i 0)
          + (1 - sigmoid ((hw.w_t.apply xs).getD i 0)) * xs.getD i 0 := by
  have hlen : (Highway.forward_t sigmoid relu hw xs).length = W := by
    simp only [Highway.forward_t, List.length_zipWith, List.length_map, Linear.apply_length,
      hwt, hbt, hwh, hbh, hx]
    omega
  have hts : (hw.w_t.apply xs).length = W := by rw [Linear.apply_length, hwt, hbt]; omega
  have hhs : (hw.w_h.apply xs).length = W := by rw [Linear.apply_length, hwh, hbh]; omega
  refine ⟨by rw [hlen, hx], ?_⟩
  intro i hi
  rw [List.getD_eq_getElem _ _ (by rw [hlen]; exact hi)]
  rw [List.getD_eq_getElem _ _ (by rw [hts]; exact hi),
    List.getD_eq_getElem _ _ (by rw [hhs]; exact hi),
    List.getD_eq_getElem _ _ (by rw [hx]; exact hi)]
  simp only [Highway.forward_t, List.getElem_zipWith, List.getElem_map]
  ring

/-- Witness for C9 at width `W = 2` over `ℤ`. -/
theorem claim_C9_highway_formula_witness :
    (Highway.forward_t sigmoid9 relu9 hw9w [3, -4]).length = ([3, -4] : List ℤ).length ∧
    (Highway.forward_t sigmoid9 relu9 hw9w [3, -4]).getD 0 0
        = sigmoid9 ((hw9w.w_t.apply [3, -4]).getD 0 0) * relu9 ((hw9w.w_h.apply [3, -4]).getD 0 0)
          + (1 - sigmoid9 ((hw9w.w_t.apply [3, -4]).getD 0 0)) * ([3, -4] : List ℤ).getD 0 0 :=
  ⟨(claim_C9_highway_formula ℤ sigmoid9 relu9 hw9w [3, -4] 2 rfl rfl rfl rfl rfl).1,
   (claim_C9_highway_formula ℤ sigmoid9 relu9 hw9w [3, -4] 2 rfl rfl rfl rfl rfl).2 0
     (by decide)⟩

/-! ## Claim C10 -/

theorem ConfigElmo.updInt_proj {γ : Type} (g : JsonELMo → γ) (json : JValue) (field : String)
    (set : ℤ → JsonELMo → JsonELMo) (p : JsonELMo)
    (hset : ∀ v q, g (set v q) = g q) :
    g (ConfigElmo.updInt json field set p) = g p := by
  unfold ConfigElmo.updInt
  cases h : ConfigElmo.validate_positive_int json field <;> simp [h, hset]

theorem ConfigElmo.updFloat_proj {γ : Type} (g : JsonELMo → γ) (json : JValue) (field : String)
    (set : ℚ → JsonELMo → JsonELMo) (p : JsonELMo)
    (hset : ∀ v q, g (set v q) = g q) :
    g (ConfigElmo.updFloat json field set p) = g p := by
  unfold ConfigElmo.updFloat
  cases h : ConfigElmo.validate_float json field <;> simp [h, hset]

theorem ConfigElmo.updVec_proj {γ : Type} (g : JsonELMo → γ) (json : JValue) (field : String)
    (set : List ℤ → JsonELMo → JsonELMo) (p : JsonELMo)
    (hset : ∀ v q, g (set v q) = g q) :
    g (ConfigElmo.updVec json field set p) = g p := by
  unfold ConfigElmo.updVec
  cases h : ConfigElmo.validate_vec json field <;> simp [h, hset]

theorem ConfigElmo.updVec_error (json : JValue) (field : String)
    (set : List ℤ → JsonELMo → JsonELMo) (p : JsonELMo) (e : String)
    (h : ConfigElmo.validate_vec json field = .error e) :
    ConfigElmo.updVec json field set p = p := by
  simp [ConfigElmo.updVec, h]

/-- `validate_vec` fails on any nonempty array whose head is a number,
because it performs the field lookup `val.get(field)` on that number. -/
theorem ConfigElmo.validate_vec_num_head (json : JValue) (field : String) (q : ℚ)
    (rest : List JValue) (h : json.get field = some (.arr (.num q :: rest))) :
    ConfigElmo.validate_vec json field = .error "field not given" := by
  unfold ConfigElmo.validate_vec
  rw [h]
  rfl

/-- Counterexample to C10 as stated: supplying `out_channels` as the empty
array — an array of numbers, vacuously — makes `validate_vec` succeed with
`[]`, so the built-in default `[1,2,3,4,5,6]` is *not* retained. -/
theorem claim_C10_counterexample :
    (ConfigElmo.validate jC10x).map JsonELMo.out_channels = .ok [] ∧
    (ConfigElmo.defaults "corpus.txt" "out").out_channels = [1, 2, 3, 4, 5, 6] ∧
    ([] : List ℤ) ≠ [1, 2, 3, 4, 5, 6] :=
  ⟨rfl, rfl, by decide⟩

/-- Amended C10: for every JSON configuration whose `out_channels` and
`kernel_size` fields are *nonempty* arrays of numbers, the array check of
the validator fails (it looks up the field name inside each array
element), so both hyperparameters retain their built-in default values. -/
theorem claim_C10_amended_defaults (json : JValue) (cf od : String)
    (hc : json.get "corpus_file" = some (.str cf))
    (ho : json.get "output_dir" = some (.str od))
    (qoc : ℚ) (roc : List JValue)
    (hoc : json.get "out_channels" = some (.arr (.num qoc :: roc)))
    (qks : ℚ) (rks : List JValue)
    (hks : json.get "kernel_size" = some (.arr (.num qks :: rks))) :
    ∃ p, ConfigElmo.validate json = .ok p ∧
      p.out_channels = [1, 2, 3, 4, 5, 6] ∧
      p.kernel_size = [25, 50, 75, 100, 125, 150] := by
  have hvoc := ConfigElmo.validate_vec_num_head json "out_channels" qoc roc hoc
  have hvks := ConfigElmo.validate_vec_num_head json "kernel_size" qks rks hks
  have hval : ConfigElmo.validate json
      = .ok (ConfigElmo.apply_optional json (ConfigElmo.defaults cf od)) := by
    unfold ConfigElmo.validate
    rw [hc, ho]
    rfl
  refine ⟨_, hval, ?_, ?_⟩
  · unfold ConfigElmo.apply_optional
    dsimp only
    rw [ConfigElmo.updVec_proj JsonELMo.out_channels json "kernel_size"
        (fun v q => { q with kernel_size := v }) _ (fun v q => rfl),
      ConfigElmo.updVec_error json "out_channels"
        (fun v q => { q with out_channels := v }) _ _ hvoc,
      ConfigElmo.updFloat_proj JsonELMo.out_channels json "learning_rate"
        (fun v q => { q with learning_rate := v }) _ (fun v q => rfl),
      ConfigElmo.updFloat_proj JsonELMo.out_channels json "dropout"
        (fun v q => { q with dropout := v }) _ (fun v q => rfl),
      ConfigElmo.updInt_proj JsonELMo.out_channels json "max_iter"
        (fun v q => { q with max_iter := v }) _ (fun v q => rfl),
      ConfigElmo.updInt_proj JsonELMo.out_channels json "n_lstm_layers"
        (fun v q => { q with n_lstm_layers := v }) _ (fun v q => rfl),
      ConfigElmo.updInt_proj JsonELMo.out_channels json "hidden_dim"
        (fun v q => { q with hidden_dim := v }) _ (fun v q => rfl),
      ConfigElmo.updInt_proj JsonELMo.out_channels json "in_dim"
        (fun v q => { q with in_dim := v }) _ (fun v q => rfl),
      ConfigElmo.updInt_proj JsonELMo.out_channels json "highways"
        (fun v q => { q with highways := v }) _ (fun v q => rfl),
      ConfigElmo.updInt_proj JsonELMo.out_channels json "in_channels"
        (fun v q => { q with in_channels := v }) _ (fun v q => rfl),
      ConfigElmo.updInt_proj JsonELMo.out_channels json "char_embedding_dim"
        (fun v q => { q with char_embedding_dim := v }) _ (fun v q => rfl),
      ConfigElmo.updInt_proj JsonELMo.out_channels json "max_len_token"
        (fun v q => { q with max_len_token := v }) _ (fun v q => rfl),
      ConfigElmo.updInt_proj JsonELMo.out_channels json "min_count"
        (fun v q => { q with min_count := v }) _ (fun v q => rfl),
      ConfigElmo.updInt_proj JsonELMo.out_channels json "char_vocab_size"
        (fun v q => { q with char_vocab_size := v }) _ (fun v q => rfl),
      ConfigElmo.updInt_proj JsonELMo.out_channels json "token_vocab_size"
        (fun v q => { q with token_vocab_size := v }) _ (fun v q => rfl)]
    rfl
  · unfold ConfigElmo.apply_optional
    dsimp only
    rw [ConfigElmo.updVec_error json "kernel_size"
        (fun v q => { q with kernel_size := v }) _ _ hvks,
      ConfigElmo.updVec_proj JsonELMo.kernel_size json "out_channels"
        (fun v q => { q with out_channels := v }) _ (fun v q => rfl),
      ConfigElmo.updFloat_proj JsonELMo.kernel_size json "learning_rate"
        (fun v q => { q with learning_rate := v }) _ (fun v q => rfl),
      ConfigElmo.updFloat_proj JsonELMo.kernel_size json "dropout"
        (fun v q => { q with dropout := v }) _ (fun v q => rfl),
      ConfigElmo.updInt_proj JsonELMo.kernel_size json "max_iter"
        (fun v q => { q with max_iter := v }) _ (fun v q => rfl),
      ConfigElmo.updInt_proj JsonELMo.kernel_size json "n_lstm_layers"
        (fun v q => { q with n_lstm_layers := v }) _ (fun v q => rfl),
      ConfigElmo.updInt_proj JsonELMo.kernel_size json "hidden_dim"
        (fun v q => { q with hidden_dim := v }) _ (fun v q => rfl),
      ConfigElmo.updInt_proj JsonELMo.kernel_size json "in_dim"
        (fun v q => { q with in_dim := v }) _ (fun v q => rfl),
      ConfigElmo.updInt_proj JsonELMo.kernel_size json "highways"
        (fun v q => { q with highways := v }) _ (fun v q => rfl),
      ConfigElmo.updInt_proj JsonELMo.kernel_size json "in_channels"
        (fun v q => { q with in_channels := v }) _ (fun v q => rfl),
      ConfigElmo.updInt_proj JsonELMo.kernel_size json "char_embedding_dim"
        (fun v q => { q with char_embedding_dim := v }) _ (fun v q => rfl),
      ConfigElmo.updInt_proj JsonELMo.kernel_size json "max_len_token"
        (fun v q => { q with max_len_token := v }) _ (fun v q => rfl),
      ConfigElmo.updInt_proj JsonELMo.kernel_size json "min_count"
        (fun v q => { q with min_count := v }) _ (fun v q => rfl),
      ConfigElmo.updInt_proj JsonELMo.kernel_size json "char_vocab_size"
        (fun v q => { q with char_vocab_size := v }) _ (fun v q => rfl),
      ConfigElmo.updInt_proj JsonELMo.kernel_size json "token_vocab_size"
        (fun v q => { q with token_vocab_size := v }) _ (fun v q => rfl)]
    rfl

/-- Witness for the amended C10 on a concrete JSON configuration with both
fields supplied as nonempty numeric arrays. -/
theorem claim_C10_amended_defaults_witness :
    ∃ p, ConfigElmo.validate jC10w = .ok p ∧
      p.out_channels = [1, 2, 3, 4, 5, 6] ∧
      p.kernel_size = [25, 50, 75, 100, 125, 150] :=
  claim_C10_amended_defaults jC10w "corpus.txt" "out" rfl rfl 7 [.num 8] rfl 9 [] rfl

end ELMoRs
